import Mathlib

/-!
Shallow embedding of the `agentic_code_observer` pipeline
(`toolbox.py`, `agent_tools.py`, `agent.py`, `data_pull.py`).

External collaborators (the GitHub HTTP API, the Pinecone vector index,
the Cohere embedding and chat models) are modelled as explicit parameters:
page responses, lookup functions, and effect traces.  Every definition is
translated from the source; compile-time constants of the source
(`per_page=100`, dimension 1024, the 12-hour cutoff, the retry string)
appear literally.
-/

namespace CodeObserver

/-- A raw pull-request object as decoded from the GitHub list-pulls endpoint,
restricted to the fields `toolbox.py` consumes.  `updated_at` is the
ISO-8601 `Z`-suffixed string (the code compares it to the recency cutoff as
a string, line 55); `merged_at` is nullable. -/
structure PR where
  id : Nat
  title : String
  body : String
  state : String
  updated_at : String
  html_url : String
  merged_at : Option String
  merge_commit_sha : String
deriving Repr, DecidableEq

/-- Python truthiness of `pr.get('merged_at')` (toolbox.py line 68):
`None` (a missing or null field) and the empty string are falsy. -/
def optTruthy : Option String → Bool
  | none => false
  | some s => !s.isEmpty

/-- One response of the list-pulls endpoint: the HTTP status code and the
decoded JSON body (a list of PR objects). -/
structure Page where
  status : Nat
  prs : List PR
deriving Repr, DecidableEq

/-- The external world seen by `Embedder.fetch_recent_prs`:
`pages` are the successive responses of the list-pulls endpoint for pages
1, 2, ... (a page past the end of the list is `200` with an empty body, as
GitHub answers past the last page); `commitMessage` models the per-sha
commit fetch of lines 80-82, i.e. the `commit.message` field of the
get-commit response, defaulting to the empty string; `parseTs` models the
library call `datetime.strptime(s, ...).timestamp()` of line 74 (seconds
since epoch). -/
structure GitHubEnv where
  pages : List Page
  commitMessage : String → String
  parseTs : String → Int

/-- Python string comparison `a <= b` on the `updated_at` ISO-8601 strings:
lexicographic by unicode code point, as Python compares `str` values. -/
def pyListLe : List Char → List Char → Bool
  | [], _ => true
  | _ :: _, [] => false
  | a :: as, b :: bs =>
    if a.toNat < b.toNat then true
    else if b.toNat < a.toNat then false
    else pyListLe as bs

def pyStrLe (a b : String) : Bool := pyListLe a.data b.data

/-- The pagination loop of `fetch_recent_prs` (toolbox.py lines 44-62),
entered at page number `n` with the remaining page responses as a list.
Each iteration issues one list request (recorded as `(page, per_page)` in
the returned trace), aborts with `none` on a non-200 status (the early
`return []` of line 50), stops with what was accumulated when a page holds
no record updated at or after `recency` (lines 55-59), and otherwise
appends the page's recent records and moves to the next page. -/
def runPages (recency : String) : Nat → List Page → List (Nat × Nat) × Option (List PR)
  | n, [] => ([(n, 100)], some [])
  | n, p :: rest =>
    if p.status ≠ 200 then ([(n, 100)], none)
    else
      let recent := p.prs.filter (fun pr => pyStrLe recency pr.updated_at)
      if recent.isEmpty then ([(n, 100)], some [])
      else
        let next := runPages recency (n + 1) rest
        ((n, 100) :: next.1, next.2.map (fun tail => recent ++ tail))

/-- The per-PR dictionary built by `fetch_recent_prs` (toolbox.py
lines 69-83): id, title, state, description (the body), numeric update
timestamp, canonical URL, and the merge commit message. -/
structure ChangeRecord where
  id : Nat
  title : String
  state : String
  description : String
  updated_at : Int
  url : String
  merge_description : String
deriving Repr, DecidableEq

/-- The second phase of `fetch_recent_prs` for one PR (toolbox.py
lines 67-85): a PR whose `merged_at` is truthy is kept, enriched with the
message of its merge commit; any other PR is dropped. -/
def mkDetails (env : GitHubEnv) (pr : PR) : Option ChangeRecord :=
  if optTruthy pr.merged_at then
    some { id := pr.id, title := pr.title, state := pr.state,
           description := pr.body, updated_at := env.parseTs pr.updated_at,
           url := pr.html_url,
           merge_description := env.commitMessage pr.merge_commit_sha }
  else none

/-- `Embedder.fetch_recent_prs` (toolbox.py lines 17-86): run the
pagination loop from page 1, return `[]` when it aborted on a non-200
status, otherwise keep the merged PRs, in order, as detail records. -/
def fetch_recent_prs (env : GitHubEnv) (recency : String) : List ChangeRecord :=
  match (runPages recency 1 env.pages).2 with
  | none => []
  | some prs => prs.filterMap (mkDetails env)

/-- The trace of list requests `(page, per_page)` issued by one run of
`fetch_recent_prs`. -/
def fetchRequests (env : GitHubEnv) (recency : String) : List (Nat × Nat) :=
  (runPages recency 1 env.pages).1

/-- The request trace of the success path: pages numbered consecutively
from `n`, `k` of them, each with `per_page = 100`. -/
def pagesFrom : Nat → Nat → List (Nat × Nat)
  | _, 0 => []
  | n, k + 1 => (n, 100) :: pagesFrom (n + 1) k

/-- The text blob embedded for one PR (toolbox.py line 101). -/
def embedText (pr : ChangeRecord) : String :=
  "Title: " ++ pr.title ++ ". Description: " ++ pr.description ++
    ". Merge Description: " ++ pr.merge_description ++ "."

/-- Python `s.split(sep)` for a one-character separator, on the character
list: every occurrence splits, empty segments are kept. -/
def splitOnChar (sep : Char) : List Char → List (List Char)
  | [] => [[]]
  | c :: cs =>
    let rest := splitOnChar sep cs
    if c = sep then [] :: rest
    else (c :: rest.headD []) :: rest.tail

/-- Python `url.split('/')[-1]` (toolbox.py line 100): the last
`/`-separated segment of the URL (`split` always yields at least one
segment, so the default is never reached). -/
def lastUrlSegment (url : String) : String :=
  String.mk (((splitOnChar '/' url.data).getLast?).getD [])

/-- The metadata dictionary attached to one vector (toolbox.py
lines 102-107). -/
structure Metadata where
  title : String
  state : String
  updated_at : Int
  url : String
deriving Repr, DecidableEq

def mkMetadata (pr : ChangeRecord) : Metadata :=
  { title := pr.title, state := pr.state, updated_at := pr.updated_at,
    url := pr.url }

/-- Python `zip` of three lists (toolbox.py line 115): truncates to the
shortest of the three. -/
def zip3 {α β γ : Type} : List α → List β → List γ → List (α × β × γ)
  | a :: as, b :: bs, c :: cs => (a, b, c) :: zip3 as bs cs
  | _, _, _ => []

/-- `Embedder.embed_pr_data` (toolbox.py lines 88-118).  The vector type
`V` is abstract (the real vectors are float lists); `embedDocs` models
`self.embeddings.embed_documents`, the one call to the embedding service.
An empty input short-circuits to `[]` before that call; otherwise the ids
(the last URL segment of each PR), texts and metadata are built in input
order and zipped with the returned vectors. -/
def embed_pr_data {V : Type} (embedDocs : List String → List V)
    (pr_data_list : List ChangeRecord) : List (String × V × Metadata) :=
  if pr_data_list.isEmpty then []
  else
    let ids := pr_data_list.map (fun pr => lastUrlSegment pr.url)
    let texts := pr_data_list.map embedText
    let metadatas := pr_data_list.map mkMetadata
    let embeddings_list := embedDocs texts
    zip3 ids embeddings_list metadatas

/-- One observable side effect on the Pinecone service, as issued by
`upsert_to_pinecone`. -/
inductive PineconeEffect (V : Type) where
  | listIndexes
  | createIndex (name : String) (dimension : Nat) (metric : String)
      (cloud : String) (region : String)
  | upsert (indexName : String) (vectors : List (String × V × Metadata))
deriving Repr, DecidableEq

/-- `Embedder.upsert_to_pinecone` (toolbox.py lines 120-142), as the trace
of Pinecone calls it issues.  `existingIndexes` is the name list the
`list_indexes` call would report.  An empty vector list returns before any
call; otherwise the index list is read, the index is created (dimension
1024, cosine metric, aws us-east-1) when absent, and the vectors are
upserted. -/
def upsert_to_pinecone {V : Type} (existingIndexes : List String)
    (vectors : List (String × V × Metadata)) (index_name : String) :
    List (PineconeEffect V) :=
  if vectors.isEmpty then []
  else
    PineconeEffect.listIndexes ::
      ((if existingIndexes.contains index_name then []
        else [PineconeEffect.createIndex index_name 1024 "cosine" "aws" "us-east-1"]) ++
        [PineconeEffect.upsert index_name vectors])

/-- One record stored in the vector index: id, vector, metadata. -/
structure IndexedRecord (V : Type) where
  id : String
  vector : V
  metadata : Metadata
deriving Repr, DecidableEq

/-- Insertion of one element into a list sorted by the boolean relation
`le` (`le a b` = `a` ranks at or before `b`). -/
def insertRanked {α : Type} (le : α → α → Bool) (a : α) : List α → List α
  | [] => [a]
  | b :: bs => if le a b then a :: b :: bs else b :: insertRanked le a bs

/-- Insertion sort by `le`; used to model the score-descending order of
Pinecone query results. -/
def sortRanked {α : Type} (le : α → α → Bool) : List α → List α
  | [] => []
  | a :: as => insertRanked le a (sortRanked le as)

/-- Model of the Pinecone `index.query` call of toolbox.py line 163, per
the service's documented semantics: the server-side metadata filter
`updated_at $gte cutoff` restricts the stored records, the survivors are
ranked by descending similarity (`sim`) to the query vector, and at most
`top_k` are returned. -/
def indexQuery {V : Type} (sim : V → V → Int) (records : List (IndexedRecord V))
    (queryVec : V) (top_k : Nat) (cutoff : Int) : List (IndexedRecord V) :=
  let eligible := records.filter (fun r => decide (cutoff ≤ r.metadata.updated_at))
  (sortRanked (fun a b => decide (sim queryVec b.vector ≤ sim queryVec a.vector))
      eligible).take top_k

/-- `Retriever.semantic_search` (toolbox.py lines 153-165): the cutoff is
fixed at query time as `now` minus 12 hours (in seconds), the issue
description is embedded by `embedQuery` (models `embed_query`), and the
index is queried with the `$gte` recency filter. -/
def semantic_search {V : Type} (embedQuery : String → V) (sim : V → V → Int)
    (records : List (IndexedRecord V)) (now : Int)
    (issue_description : String) (top_k : Nat) : List (IndexedRecord V) :=
  let cutoff := now - 12 * 3600
  let query_embedding := embedQuery issue_description
  indexQuery sim records query_embedding top_k cutoff

/-- A Python value returned by `Retriever.get_diffs`: the empty-input path
returns a Python list (`return []`, line 175), the other path returns a
dict, modelled as its insertion-ordered entry list. -/
inductive DiffResult where
  | pylist : List String → DiffResult
  | pydict : List (String × String) → DiffResult
deriving Repr, DecidableEq

/-- Python dict assignment `d[k] = v`: overwrite in place when the key
exists, append otherwise. -/
def dictInsert (d : List (String × String)) (k v : String) :
    List (String × String) :=
  if d.any (fun p => p.1 == k) then
    d.map (fun p => if p.1 == k then (k, v) else p)
  else d ++ [(k, v)]

/-- The diff URL pattern of toolbox.py line 180. -/
def prDiffUrl (owner repo pr_id : String) : String :=
  "https://github.com/" ++ owner ++ "/" ++ repo ++ "/pull/" ++ pr_id ++ ".diff"

/-- `Retriever.get_diffs` (toolbox.py lines 167-187).  `fetchDiff` maps a
URL to the text body the host answers (models `requests.get(...).text`).
Returns the Python value together with the number of HTTP GET requests
issued: the empty id list returns the Python list `[]` with zero requests;
otherwise one request per id fills a dict keyed by id. -/
def get_diffs (fetchDiff : String → String) (owner repo : String)
    (pr_ids : List String) : DiffResult × Nat :=
  if pr_ids.isEmpty then (DiffResult.pylist [], 0)
  else
    (DiffResult.pydict
        (pr_ids.foldl
          (fun d i => dictInsert d i (fetchDiff (prDiffUrl owner repo i))) []),
      pr_ids.length)

/-- One tool invocation request emitted by the reasoning model: name,
arguments (kept opaque as a string), and call id. -/
structure ToolCall where
  name : String
  args : String
  id : String
deriving Repr, DecidableEq

/-- A conversation message, mirroring the langchain message kinds the agent
uses: `SystemMessage`, `HumanMessage`, an assistant message carrying tool
calls, and `ToolMessage tool_call_id name content`. -/
inductive Message where
  | system : String → Message
  | human : String → Message
  | ai : String → List ToolCall → Message
  | tool : String → String → String → Message
deriving Repr, DecidableEq

/-- The `tool_calls` attribute read by `exists_action` and `take_action`;
only assistant messages carry tool calls. -/
def Message.toolCalls : Message → List ToolCall
  | .ai _ tcs => tcs
  | _ => []

/-- `state['messages'][-1].tool_calls` (agent.py lines 55 and 66): the tool
calls of the last message of the conversation. -/
def lastToolCalls (messages : List Message) : List ToolCall :=
  ((messages.getLast?).map Message.toolCalls).getD []

/-- The nodes of the compiled agent graph; `terminal` is langgraph's END. -/
inductive Node where
  | llm
  | action
  | terminal
deriving Repr, DecidableEq

/-- `Agent.exists_action` (agent.py lines 54-56): whether the last message
requested at least one tool call. -/
def exists_action (messages : List Message) : Bool :=
  decide (0 < (lastToolCalls messages).length)

/-- The conditional edge out of the llm node (agent.py lines 43-47):
to the action node when `exists_action` holds, else to END. -/
def nextAfterLlm (messages : List Message) : Node :=
  if exists_action messages then Node.action else Node.terminal

/-- The unconditional edge `action -> llm` (agent.py line 48). -/
def nextAfterAction : Node := Node.llm

/-- What one run of the action node produced: the tool-result messages, in
request order, and the `(name, args)` pairs of the tools actually invoked. -/
structure ActionResult where
  results : List Message
  executed : List (String × String)
deriving Repr

/-- `Agent.take_action` (agent.py lines 65-77).  The agent's tool set is an
association list from tool name to its (pure model of an) invoke function.
A requested name absent from the tool set is not invoked; its result is the
literal retry instruction `"bad tool name, retry"` (line 72).  Every
request, known or not, yields one tool message carrying its call id and
name. -/
def take_action (tools : List (String × (String → String))) :
    List ToolCall → ActionResult
  | [] => ⟨[], []⟩
  | t :: ts =>
    let rest := take_action tools ts
    match tools.lookup t.name with
    | none =>
        ⟨Message.tool t.id t.name "bad tool name, retry" :: rest.results,
          rest.executed⟩
    | some f =>
        ⟨Message.tool t.id t.name (f t.args) :: rest.results,
          (t.name, t.args) :: rest.executed⟩

/-- One execution of the action node on the current conversation: run
`take_action` on the last message's tool calls, append the results to the
state (the `operator.add` annotation of `AgentState.messages`), and follow
the unconditional edge back to the llm node. -/
def actionStep (tools : List (String × (String → String)))
    (messages : List Message) : List Message × Node :=
  let out := take_action tools (lastToolCalls messages)
  (messages ++ out.results, nextAfterAction)

/-- The system prompt of the relevance judgment call
(agent_tools.py lines 32-39). -/
def judgeSystemPrompt : String :=
  "\n        You are a professional software engineer that can read code and understand the changes made in a PR.\n        You will be given a list of PRs and their diffs, and an issue description.\n        Your job is to find the PR that is most relevant to the issue description.\n        You will output the PR id and url of the most relevant PR with a description of the changes made in the PR.\n        Do not suggest any fixes, just the PR id and the description of the changes found within.\n        For the description of changes, denote which lines each significant change is on.\n        "

/-- Python `str` of the `diffs_with_metadata` dict, an entry per candidate:
id maps to its url and diff. -/
def serializeDict (entries : List (String × String × String)) : String :=
  "\x7b" ++ String.intercalate ", "
      (entries.map (fun e =>
        "'" ++ e.1 ++ "': \x7b'url': '" ++ e.2.1 ++ "', 'diff': '" ++
          e.2.2 ++ "'\x7d")) ++ "\x7d"

/-- The human prompt of the relevance judgment call
(agent_tools.py lines 40-45), with the serialized candidate dict and the
issue description interpolated. -/
def judgeHumanPrompt (serialized issue_description : String) : String :=
  "\n        Here are the PRs most likely to have caused the issue, in the form of a dictionary with the PR id as the key and the diff as the value:\n        " ++ serialized ++
    "\n        \n        Which code PR is most relevant to the issue description: " ++
    issue_description ++ "?\n        "

/-- A Python value returned by the `find_relevant_diffs` tool: either bare
text, or a dict of the shape `\x7b"messages": [...]\x7d` modelled by the
list it maps the key `"messages"` to. -/
inductive ToolReturn where
  | text : String → ToolReturn
  | messagesDict : List String → ToolReturn
deriving Repr, DecidableEq

/-- Python `diffs[k]` on the value `get_diffs` returned; the keys looked up
are exactly the keys inserted, so the default is never reached on the
code's path. -/
def dictLookup (d : DiffResult) (k : String) : String :=
  match d with
  | .pylist _ => ""
  | .pydict entries => (entries.lookup k).getD ""

/-- The two-message conversation `find_relevant_diffs` sends to the chat
model (agent_tools.py lines 31-46). -/
def judgeMessages (diffs_with_metadata : List (String × String × String))
    (issue_description : String) : List Message :=
  [Message.system judgeSystemPrompt,
   Message.human (judgeHumanPrompt (serializeDict diffs_with_metadata)
      issue_description)]

/-- `find_relevant_diffs` (agent_tools.py lines 11-49).  `chat` models
`ChatCohere.invoke` returning the response content.  The semantic search
runs with index `rootly` and `top_k = 5`; the candidate ids and urls come
from the matches; the diffs are fetched for the fixed owner and repo; the
chat model is invoked on the fixed prompts; and the function returns the
dict `\x7b"messages": [response.content]\x7d` (line 49). -/
def find_relevant_diffs {V : Type} (embedQuery : String → V)
    (sim : V → V → Int) (records : List (IndexedRecord V)) (now : Int)
    (fetchDiff : String → String) (chat : List Message → String)
    (issue_description : String) : ToolReturn :=
  let search_results := semantic_search embedQuery sim records now
      issue_description 5
  let prs := search_results.map (fun r => (r.id, r.metadata.url))
  let pr_ids := prs.map (fun p => p.1)
  let diffs := (get_diffs fetchDiff "ethanbailie" "agentic_code_observer"
      pr_ids).1
  let diffs_with_metadata := prs.map (fun p => (p.1, p.2, dictLookup diffs p.1))
  ToolReturn.messagesDict
    [chat (judgeMessages diffs_with_metadata issue_description)]

/-! Concrete records, pages and environments used to instantiate the
theorems on closed inputs. -/

def sampleRecord : ChangeRecord :=
  { id := 101, title := "fix retriever", state := "closed",
    description := "repairs the retriever", updated_at := 1717290000,
    url := "https://github.com/ethanbailie/agentic_code_observer/pull/7",
    merge_description := "merged the retriever fix" }

def sampleRecord2 : ChangeRecord :=
  { id := 102, title := "add indexer", state := "closed",
    description := "adds the indexer", updated_at := 1717293600,
    url := "https://github.com/ethanbailie/agentic_code_observer/pull/8",
    merge_description := "merged the indexer" }

/-- An embedding service that answers one vector per input text. -/
def okEmbed : List String → List Int :=
  fun texts => texts.map (fun _ => 0)

/-- An embedding service that answers a single vector regardless of how
many texts it is given. -/
def shortEmbed : List String → List Int :=
  fun _ => [7]

def sampleIndexed : IndexedRecord Int :=
  { id := "7", vector := 0,
    metadata := { title := "fix retriever", state := "closed",
                  updated_at := 1717290000,
                  url := "https://github.com/ethanbailie/agentic_code_observer/pull/7" } }

def prUnmerged : PR :=
  { id := 1, title := "refactor toolbox", body := "reshuffles the toolbox",
    state := "open", updated_at := "2024-06-02T00:00:00Z",
    html_url := "https://github.com/ethanbailie/agentic_code_observer/pull/1",
    merged_at := none, merge_commit_sha := "sha1" }

def prMerged : PR :=
  { id := 2, title := "fix upsert", body := "repairs the upsert",
    state := "closed", updated_at := "2024-06-02T01:00:00Z",
    html_url := "https://github.com/ethanbailie/agentic_code_observer/pull/2",
    merged_at := some "2024-06-02T01:00:00Z", merge_commit_sha := "sha2" }

def recencyCutoff : String := "2024-06-01T00:00:00Z"

def pageUnmerged : Page := { status := 200, prs := [prUnmerged] }

def pageMerged : Page := { status := 200, prs := [prMerged] }

def pageForbidden : Page := { status := 403, prs := [] }

def pageEmpty : Page := { status := 200, prs := [] }

/-- Page 1 holds only an unmerged recent PR, page 2 a merged recent one,
page 3 is empty. -/
def envTwoPages : GitHubEnv :=
  { pages := [pageUnmerged, pageMerged],
    commitMessage := fun _ => "merge msg", parseTs := fun _ => 1717290000 }

/-- Page 1 succeeds with a recent PR, page 2 answers HTTP 403. -/
def envForbidden : GitHubEnv :=
  { pages := [pageMerged, pageForbidden],
    commitMessage := fun _ => "merge msg", parseTs := fun _ => 1717290000 }

/-- Page 1 succeeds with a recent PR, page 2 is an empty 200 page. -/
def envOnePage : GitHubEnv :=
  { pages := [pageMerged, pageEmpty],
    commitMessage := fun _ => "merge msg", parseTs := fun _ => 1717290000 }

/-! Helper lemmas. -/

lemma zip3_length {α β γ : Type} (as : List α) (bs : List β) (cs : List γ) :
    (zip3 as bs cs).length = min as.length (min bs.length cs.length) := by
  induction as generalizing bs cs with
  | nil => simp [zip3]
  | cons a as ih =>
    cases bs with
    | nil => simp [zip3]
    | cons b bs =>
      cases cs with
      | nil => simp [zip3]
      | cons c cs =>
        simp only [zip3, List.length_cons, ih]
        omega

lemma zip3_get {α β γ : Type} (as : List α) (bs : List β) (cs : List γ)
    (i : Nat) (h : i < (zip3 as bs cs).length) (ha : i < as.length)
    (hb : i < bs.length) (hc : i < cs.length) :
    (zip3 as bs cs).get ⟨i, h⟩ =
      (as.get ⟨i, ha⟩, bs.get ⟨i, hb⟩, cs.get ⟨i, hc⟩) := by
  induction as generalizing bs cs i with
  | nil => simp at ha
  | cons a as ih =>
    cases bs with
    | nil => simp at hb
    | cons b bs =>
      cases cs with
      | nil => simp at hc
      | cons c cs =>
        cases i with
        | zero => rfl
        | succ j =>
          simpa [zip3] using ih bs cs j (by simpa [zip3] using h)
            (by simpa using ha) (by simpa using hb) (by simpa using hc)

lemma zip3_getElem? {α β γ : Type} (as : List α) (bs : List β) (cs : List γ)
    (i : Nat) (a : α) (b : β) (c : γ) (ha : as[i]? = some a)
    (hb : bs[i]? = some b) (hc : cs[i]? = some c) :
    (zip3 as bs cs)[i]? = some (a, b, c) := by
  induction as generalizing bs cs i with
  | nil => simp at ha
  | cons x xs ih =>
    cases bs with
    | nil => simp at hb
    | cons y ys =>
      cases cs with
      | nil => simp at hc
      | cons z zs =>
        cases i with
        | zero =>
          simp only [List.getElem?_cons_zero, Option.some.injEq] at ha hb hc
          simp [zip3, ha, hb, hc]
        | succ j =>
          simp only [List.getElem?_cons_succ] at ha hb hc
          simpa [zip3] using ih ys zs j ha hb hc

lemma mem_insertRanked {α : Type} (le : α → α → Bool) (a x : α)
    (l : List α) : x ∈ insertRanked le a l ↔ x = a ∨ x ∈ l := by
  induction l with
  | nil => simp [insertRanked]
  | cons b bs ih =>
    by_cases hab : le a b
    · simp [insertRanked, hab]
    · simp [insertRanked, hab, ih]
      tauto

lemma mem_sortRanked {α : Type} (le : α → α → Bool) (x : α) (l : List α) :
    x ∈ sortRanked le l ↔ x ∈ l := by
  induction l with
  | nil => simp [sortRanked]
  | cons a as ih => simp [sortRanked, mem_insertRanked, ih]

lemma runPages_abort (recency : String) (good : List Page) (bad : Page)
    (rest : List Page) (n : Nat)
    (hgood : ∀ p ∈ good, p.status = 200 ∧
      ((p.prs.filter fun pr => pyStrLe recency pr.updated_at).isEmpty = false))
    (hbad : bad.status ≠ 200) :
    (runPages recency n (good ++ bad :: rest)).2 = none := by
  induction good generalizing n with
  | nil =>
    simp only [List.nil_append, runPages]
    rw [if_pos hbad]
  | cons p good ih =>
    obtain ⟨h200, hne⟩ := hgood p (by simp)
    have htail := ih (n + 1) (fun q hq => hgood q (by simp [hq]))
    rw [List.cons_append]
    simp only [runPages]
    rw [if_neg (by simp [h200]), if_neg (by simp only [hne]; exact Bool.false_ne_true)]
    simp [htail]

lemma runPages_success (recency : String) (good : List Page) (stale : Page)
    (rest : List Page) (n : Nat)
    (hgood : ∀ p ∈ good, p.status = 200 ∧
      ((p.prs.filter fun pr => pyStrLe recency pr.updated_at).isEmpty = false))
    (hstale : stale.status = 200 ∧
      ((stale.prs.filter fun pr => pyStrLe recency pr.updated_at).isEmpty = true)) :
    runPages recency n (good ++ stale :: rest) =
      (pagesFrom n (good.length + 1),
        some ((good.map
          (fun p => p.prs.filter fun pr => pyStrLe recency pr.updated_at)).flatten)) := by
  induction good generalizing n with
  | nil =>
    simp only [List.nil_append, runPages]
    rw [if_neg (by simp [hstale.1]), if_pos hstale.2]
    simp [pagesFrom]
  | cons p good ih =>
    obtain ⟨h200, hne⟩ := hgood p (by simp)
    have htail := ih (n + 1) (fun q hq => hgood q (by simp [hq]))
    rw [List.cons_append]
    simp only [runPages]
    rw [if_neg (by simp [h200]), if_neg (by simp only [hne]; exact Bool.false_ne_true)]
    simp [htail, pagesFrom]

lemma runPages_requests_cons (recency : String) (n : Nat) (l : List Page) :
    ∃ t, (runPages recency n l).1 = (n, 100) :: t := by
  cases l with
  | nil => exact ⟨[], rfl⟩
  | cons p rest =>
    by_cases h : p.status ≠ 200
    · exact ⟨[], by simp only [runPages]; rw [if_pos h]⟩
    · by_cases he :
        (p.prs.filter fun pr => pyStrLe recency pr.updated_at).isEmpty
      · exact ⟨[], by simp only [runPages]; rw [if_neg h, if_pos he]⟩
      · exact ⟨(runPages recency (n + 1) rest).1,
          by simp only [runPages]; rw [if_neg h, if_neg he]⟩

lemma take_action_retry_mem (tools : List (String × (String → String)))
    (tcs : List ToolCall) (t : ToolCall) (hmem : t ∈ tcs)
    (hunk : tools.lookup t.name = none) :
    Message.tool t.id t.name "bad tool name, retry" ∈
      (take_action tools tcs).results := by
  induction tcs with
  | nil => simp at hmem
  | cons s ts ih =>
    rcases List.mem_cons.mp hmem with hst | hts
    · subst hst
      simp [take_action, hunk]
    · cases hl : tools.lookup s.name with
      | none => simp [take_action, hl, ih hts]
      | some f => simp [take_action, hl, ih hts]

lemma take_action_executed_known (tools : List (String × (String → String)))
    (tcs : List ToolCall) :
    ∀ q ∈ (take_action tools tcs).executed, tools.lookup q.1 ≠ none := by
  induction tcs with
  | nil => simp [take_action]
  | cons s ts ih =>
    intro q hq
    cases hl : tools.lookup s.name with
    | none =>
      simp only [take_action, hl] at hq
      exact ih q hq
    | some f =>
      simp only [take_action, hl, List.mem_cons] at hq
      rcases hq with hq | hq
      · subst hq
        simp [hl]
      · exact ih q hq

/-! Claim theorems. -/

/-- C10: calling `upsert_to_pinecone` with an empty vector list returns
immediately with no side effect, for every index name and every state of
the service: no `list_indexes` call, no index creation even when the index
is absent from `existingIndexes`, and no upsert call. -/
theorem upsert_empty_vectors_no_effects (V : Type)
    (existingIndexes : List String) (index_name : String) :
    @upsert_to_pinecone V existingIndexes [] index_name = [] := rfl

/-- C6 counterexample: on the empty id list `get_diffs` returns the Python
list `[]` (toolbox.py line 175), which is a different Python value from the
empty dict produced by the non-empty path — the claim's "empty mapping" is
not what is returned.  The zero network calls do hold. -/
theorem get_diffs_empty_returns_list_not_dict :
    (get_diffs (fun _ => "diff text") "ethanbailie" "agentic_code_observer"
        []).1 = DiffResult.pylist []
    ∧ DiffResult.pylist [] ≠ DiffResult.pydict []
    ∧ (get_diffs (fun _ => "diff text") "ethanbailie" "agentic_code_observer"
        []).2 = 0 :=
  ⟨rfl, by decide, rfl⟩

/-- C6 (amended): for the empty candidate id list, `get_diffs` returns the
empty Python list (not an empty dict) and performs no network call, for
every host behaviour, owner and repo. -/
theorem get_diffs_empty_ids_no_calls (fetchDiff : String → String)
    (owner repo : String) :
    get_diffs fetchDiff owner repo [] = (DiffResult.pylist [], 0) := rfl

/-- C7 counterexample: `find_relevant_diffs` does not return the reasoning
model's free-text response as bare text; it returns the structured wrapper
dict mapping "messages" to the singleton list holding the response
(agent_tools.py line 49). -/
theorem find_relevant_diffs_not_bare_text :
    find_relevant_diffs (fun _ => (0 : Int)) (fun _ _ => 0) [] 0
        (fun _ => "") (fun _ => "PR 2 is most relevant")
        "Broken pinecone upsert" =
      ToolReturn.messagesDict ["PR 2 is most relevant"]
    ∧ find_relevant_diffs (fun _ => (0 : Int)) (fun _ _ => 0) [] 0
        (fun _ => "") (fun _ => "PR 2 is most relevant")
        "Broken pinecone upsert" ≠
      ToolReturn.text "PR 2 is most relevant" :=
  ⟨rfl, by decide⟩

/-- C7 (amended): whatever free text the reasoning model answers is passed
through with no parsing, validation, or alteration, but wrapped in the dict
structure mapping "messages" to a one-element list — the return value is
that wrapper, never the bare text. -/
theorem find_relevant_diffs_wraps_verbatim {V : Type}
    (embedQuery : String → V) (sim : V → V → Int)
    (records : List (IndexedRecord V)) (now : Int)
    (fetchDiff : String → String) (issue_description response : String) :
    find_relevant_diffs embedQuery sim records now fetchDiff
        (fun _ => response) issue_description =
      ToolReturn.messagesDict [response] := rfl

/-- C3: every record returned by `semantic_search` has a stored
`updated_at` at or after the query-time cutoff `now - 12h`; a record older
than that never appears in the results, for every query, index content,
and `top_k`. -/
theorem semantic_search_recency_cutoff {V : Type} (embedQuery : String → V)
    (sim : V → V → Int) (records : List (IndexedRecord V)) (now : Int)
    (issue_description : String) (top_k : Nat) (r : IndexedRecord V)
    (hr : r ∈ semantic_search embedQuery sim records now issue_description
        top_k) :
    now - 12 * 3600 ≤ r.metadata.updated_at := by
  have hsort : r ∈ sortRanked
      (fun a b => decide (sim (embedQuery issue_description) b.vector ≤
        sim (embedQuery issue_description) a.vector))
      (records.filter
        (fun q => decide (now - 12 * 3600 ≤ q.metadata.updated_at))) :=
    List.mem_of_mem_take hr
  have hfil := (mem_sortRanked _ r _).mp hsort
  exact of_decide_eq_true (List.mem_filter.mp hfil).2

/-- C3 witness: a concrete one-record index whose record is inside the
12-hour window is returned and satisfies the cutoff. -/
theorem semantic_search_recency_cutoff_wit :
    sampleIndexed ∈ semantic_search (fun _ => (0 : Int)) (fun _ _ => 0)
        [sampleIndexed] 1717300000 "Broken pinecone upsert" 5
    ∧ (1717300000 : Int) - 12 * 3600 ≤ sampleIndexed.metadata.updated_at :=
  ⟨by decide,
    semantic_search_recency_cutoff (fun _ => (0 : Int)) (fun _ _ => 0)
      [sampleIndexed] 1717300000 "Broken pinecone upsert" 5 sampleIndexed
      (by decide)⟩

/-- C4: when the last message requests a tool name absent from the agent's
tool set, the action node does not execute it (everything executed has a
known name), appends the synthetic retry tool message for that call to the
conversation, and the graph follows the unconditional edge back to the llm
node — never to the terminal node. -/
theorem unknown_tool_retry_continues
    (tools : List (String × (String → String))) (st : List Message)
    (t : ToolCall) (hmem : t ∈ lastToolCalls st)
    (hunk : tools.lookup t.name = none) :
    Message.tool t.id t.name "bad tool name, retry" ∈ (actionStep tools st).1
    ∧ (∀ q ∈ (take_action tools (lastToolCalls st)).executed,
        tools.lookup q.1 ≠ none)
    ∧ (actionStep tools st).2 = Node.llm
    ∧ Node.llm ≠ Node.terminal := by
  refine ⟨?_, take_action_executed_known tools (lastToolCalls st), rfl,
    by decide⟩
  exact List.mem_append.mpr
    (Or.inr (take_action_retry_mem tools (lastToolCalls st) t hmem hunk))

/-- C4 witness: a concrete conversation whose last message requests the
unknown tool "bogus" next to a tool set holding only
"find_relevant_diffs". -/
theorem unknown_tool_retry_continues_wit :
    ((⟨"bogus", "issue text", "call1"⟩ : ToolCall) ∈
        lastToolCalls [Message.ai "" [⟨"bogus", "issue text", "call1"⟩]])
    ∧ ([("find_relevant_diffs", fun _ => "tool output")] :
        List (String × (String → String))).lookup "bogus" = none
    ∧ (Message.tool "call1" "bogus" "bad tool name, retry" ∈
        (actionStep [("find_relevant_diffs", fun _ => "tool output")]
          [Message.ai "" [⟨"bogus", "issue text", "call1"⟩]]).1
      ∧ (∀ q ∈ (take_action [("find_relevant_diffs", fun _ => "tool output")]
          (lastToolCalls [Message.ai "" [⟨"bogus", "issue text", "call1"⟩]])).executed,
          ([("find_relevant_diffs", fun _ => "tool output")] :
            List (String × (String → String))).lookup q.1 ≠ none)
      ∧ (actionStep [("find_relevant_diffs", fun _ => "tool output")]
          [Message.ai "" [⟨"bogus", "issue text", "call1"⟩]]).2 = Node.llm
      ∧ Node.llm ≠ Node.terminal) :=
  ⟨by decide, rfl,
    unknown_tool_retry_continues [("find_relevant_diffs", fun _ => "tool output")]
      [Message.ai "" [⟨"bogus", "issue text", "call1"⟩]]
      ⟨"bogus", "issue text", "call1"⟩ (by decide) rfl⟩

/-- C5: whenever the pagination loop reaches a page whose list request
answers a non-success status (every earlier page succeeded and kept the
loop going by holding a recent record), the whole fetch aborts and
`fetch_recent_prs` returns the empty list — the records of the already
fetched pages are discarded, and being a total function it propagates no
exception. -/
theorem fetch_aborts_empty_on_error (env : GitHubEnv) (recency : String)
    (good : List Page) (bad : Page) (rest : List Page)
    (hpages : env.pages = good ++ bad :: rest)
    (hgood : ∀ p ∈ good, p.status = 200 ∧
      ((p.prs.filter fun pr => pyStrLe recency pr.updated_at).isEmpty = false))
    (hbad : bad.status ≠ 200) :
    fetch_recent_prs env recency = [] := by
  have habort := runPages_abort recency good bad rest 1 hgood hbad
  simp [fetch_recent_prs, hpages, habort]

/-- C5 witness: page 1 succeeds with a recent merged PR, page 2 answers
HTTP 403; the fetch returns the empty list. -/
theorem fetch_aborts_empty_on_error_wit :
    envForbidden.pages = [pageMerged] ++ pageForbidden :: []
    ∧ (∀ p ∈ [pageMerged], p.status = 200 ∧
        ((p.prs.filter fun pr =>
          pyStrLe recencyCutoff pr.updated_at).isEmpty = false))
    ∧ pageForbidden.status ≠ 200
    ∧ fetch_recent_prs envForbidden recencyCutoff = [] :=
  ⟨rfl, by decide, by decide,
    fetch_aborts_empty_on_error envForbidden recencyCutoff [pageMerged]
      pageForbidden [] rfl (by decide) (by decide)⟩

/-- C9: on the success path (every page the loop sees answers 200) the
pagination loop requests pages 1, 2, ... consecutively with the fixed
`per_page = 100`, stops exactly at the first page with no record inside the
recency window, and the accumulated result is the concatenation, in page
order, of the recent records of every earlier page. -/
theorem pagination_increasing_until_stale_page (env : GitHubEnv)
    (recency : String) (good : List Page) (stale : Page) (rest : List Page)
    (hpages : env.pages = good ++ stale :: rest)
    (hgood : ∀ p ∈ good, p.status = 200 ∧
      ((p.prs.filter fun pr => pyStrLe recency pr.updated_at).isEmpty = false))
    (hstale : stale.status = 200 ∧
      ((stale.prs.filter fun pr => pyStrLe recency pr.updated_at).isEmpty = true)) :
    fetchRequests env recency = pagesFrom 1 (good.length + 1)
    ∧ (runPages recency 1 env.pages).2 =
        some ((good.map
          (fun p => p.prs.filter fun pr => pyStrLe recency pr.updated_at)).flatten) := by
  have hrun := runPages_success recency good stale rest 1 hgood hstale
  constructor
  · simp [fetchRequests, hpages, hrun]
  · simp [hpages, hrun]

/-- C9 witness: one page with a recent PR followed by an empty page; the
loop requests pages 1 and 2 with `per_page = 100` and accumulates exactly
the first page's recent records. -/
theorem pagination_increasing_until_stale_page_wit :
    envOnePage.pages = [pageMerged] ++ pageEmpty :: []
    ∧ (∀ p ∈ [pageMerged], p.status = 200 ∧
        ((p.prs.filter fun pr =>
          pyStrLe recencyCutoff pr.updated_at).isEmpty = false))
    ∧ (pageEmpty.status = 200 ∧
        ((pageEmpty.prs.filter fun pr =>
          pyStrLe recencyCutoff pr.updated_at).isEmpty = true))
    ∧ (fetchRequests envOnePage recencyCutoff = pagesFrom 1 2
      ∧ (runPages recencyCutoff 1 envOnePage.pages).2 =
          some (([pageMerged].map
            (fun p => p.prs.filter fun pr =>
              pyStrLe recencyCutoff pr.updated_at)).flatten)) :=
  ⟨rfl, by decide, by decide,
    pagination_increasing_until_stale_page envOnePage recencyCutoff
      [pageMerged] pageEmpty [] rfl (by decide) (by decide)⟩

/-- C8 counterexample: page 1 of `envTwoPages` holds exactly one PR, it is
recent but has no merge timestamp.  The claim says such a PR does not count
toward the update-recency eligibility that keeps pagination going, so the
loop would stop after requesting page 1 and return nothing.  The code
counts it: page 2 is requested, and the merged PR found there is returned.
Only merged PRs appear in the result, but the unmerged one did keep
pagination alive. -/
theorem unmerged_pr_keeps_pagination_alive :
    envTwoPages.pages.head? = some pageUnmerged
    ∧ pageUnmerged.prs = [prUnmerged]
    ∧ optTruthy prUnmerged.merged_at = false
    ∧ pyStrLe recencyCutoff prUnmerged.updated_at = true
    ∧ fetchRequests envTwoPages recencyCutoff = [(1, 100), (2, 100), (3, 100)]
    ∧ fetchRequests envTwoPages recencyCutoff ≠ [(1, 100)]
    ∧ fetch_recent_prs envTwoPages recencyCutoff =
        [{ id := 2, title := "fix upsert", state := "closed",
           description := "repairs the upsert", updated_at := 1717290000,
           url := "https://github.com/ethanbailie/agentic_code_observer/pull/2",
           merge_description := "merge msg" }] := by
  refine ⟨rfl, rfl, rfl, by decide, by decide, by decide, by decide⟩

/-- C8 (amended): a change with no merge timestamp is dropped from the
returned sequence — every returned record originates from a PR whose
`merged_at` is truthy — but it still counts toward the update-recency
eligibility that keeps pagination going: any 200 page holding a record
inside the recency window, merged or not, makes the loop request the next
page number. -/
theorem merged_filter_after_pagination (env : GitHubEnv) (recency : String) :
    (∀ r ∈ fetch_recent_prs env recency,
      ∃ pr, optTruthy pr.merged_at = true ∧ mkDetails env pr = some r)
    ∧ (∀ (p : Page) (rest : List Page) (n : Nat), p.status = 200 →
        ((p.prs.filter fun pr => pyStrLe recency pr.updated_at).isEmpty
          = false) →
        (n + 1, 100) ∈ (runPages recency n (p :: rest)).1) := by
  constructor
  · intro r hr
    unfold fetch_recent_prs at hr
    cases hrun : (runPages recency 1 env.pages).2 with
    | none => rw [hrun] at hr; simp at hr
    | some prs =>
      rw [hrun] at hr
      obtain ⟨pr, _, hpr⟩ := List.mem_filterMap.mp hr
      refine ⟨pr, ?_, hpr⟩
      by_contra hfalse
      simp only [mkDetails, Bool.not_eq_true] at hpr hfalse
      rw [if_neg (by simp [hfalse])] at hpr
      exact Option.noConfusion hpr
  · intro p rest n h200 hne
    obtain ⟨t, ht⟩ := runPages_requests_cons recency (n + 1) rest
    simp only [runPages]
    rw [if_neg (by simp [h200]),
      if_neg (by simp only [hne]; exact Bool.false_ne_true)]
    simp [ht]

/-- C8 witness: instantiating at the concrete two-page environment — the
merged-only part at its returned record, the pagination part at the
unmerged-only first page. -/
theorem merged_filter_after_pagination_wit :
    pageUnmerged.status = 200
    ∧ ((pageUnmerged.prs.filter fun pr =>
        pyStrLe recencyCutoff pr.updated_at).isEmpty = false)
    ∧ (2, 100) ∈ (runPages recencyCutoff 1 [pageUnmerged]).1 :=
  ⟨rfl, by decide,
    (merged_filter_after_pagination envTwoPages recencyCutoff).2 pageUnmerged
      [] 1 rfl (by decide)⟩

/-- C1 counterexample: two change records, but the embedding service
answers a single vector.  `embed_pr_data` silently returns one tuple — the
Python `zip` of toolbox.py line 115 truncates — instead of returning two
vectors or failing with a length-mismatch error. -/
theorem embed_pr_data_mismatch_no_error :
    ([sampleRecord, sampleRecord2] : List ChangeRecord).length = 2
    ∧ (shortEmbed ([sampleRecord, sampleRecord2].map embedText)).length = 1
    ∧ (embed_pr_data shortEmbed [sampleRecord, sampleRecord2]).length = 1 :=
  ⟨rfl, rfl, rfl⟩

/-- C1 (amended): for N input records, `embed_pr_data` returns exactly
`min N M` tuples where M is the number of vectors the embedding service
answered — exactly N, in input order, when the service answers one vector
per text, but silently truncated (never an error) when the service answers
a different number; each returned tuple pairs the i-th record's id and
metadata with the i-th returned vector. -/
theorem embed_pr_data_truncating_zip {V : Type} (f : List String → List V)
    (prs : List ChangeRecord) :
    (embed_pr_data f prs).length =
      min prs.length (f (prs.map embedText)).length
    ∧ ∀ (i : Nat) (h : i < (embed_pr_data f prs).length)
        (hp : i < prs.length) (he : i < (f (prs.map embedText)).length),
        (embed_pr_data f prs).get ⟨i, h⟩ =
          (lastUrlSegment (prs.get ⟨i, hp⟩).url,
            (f (prs.map embedText)).get ⟨i, he⟩,
            mkMetadata (prs.get ⟨i, hp⟩)) := by
  cases hprs : prs.isEmpty with
  | true =>
    have hnil : prs = [] := List.isEmpty_iff.mp hprs
    subst hnil
    exact ⟨by simp [embed_pr_data], fun i h hp he => absurd hp (by simp)⟩
  | false =>
    have hEq : embed_pr_data f prs =
        zip3 (prs.map fun pr => lastUrlSegment pr.url)
          (f (prs.map embedText)) (prs.map mkMetadata) := by
      simp only [embed_pr_data]
      rw [if_neg (by simp [hprs])]
    rw [hEq]
    constructor
    · rw [zip3_length]
      simp only [List.length_map]
      omega
    · intro i h hp he
      rw [zip3_get _ _ _ i h (by simpa using hp) he (by simpa using hp)]
      simp [List.get_eq_getElem, List.getElem_map]

/-- C1 witness: one record and a one-vector answer; the output has the
minimum length 1 and its only tuple is the record's id, vector and
metadata. -/
theorem embed_pr_data_truncating_zip_wit :
    (embed_pr_data okEmbed [sampleRecord]).length =
      min ([sampleRecord] : List ChangeRecord).length
        (okEmbed ([sampleRecord].map embedText)).length
    ∧ (embed_pr_data okEmbed [sampleRecord]).get ⟨0, by decide⟩ =
        (lastUrlSegment (([sampleRecord] :
            List ChangeRecord).get ⟨0, by decide⟩).url,
          (okEmbed ([sampleRecord].map embedText)).get ⟨0, by decide⟩,
          mkMetadata (([sampleRecord] : List ChangeRecord).get ⟨0, by decide⟩)) :=
  ⟨(embed_pr_data_truncating_zip okEmbed [sampleRecord]).1,
    (embed_pr_data_truncating_zip okEmbed [sampleRecord]).2 0 (by decide)
      (by decide) (by decide)⟩

/-- C2 counterexample: a change record whose source-assigned id is 101 and
whose URL ends in the pull number 7.  The produced vector id is "7", the
last URL segment, which differs from the record's id field. -/
theorem embed_id_differs_from_record_id :
    (embed_pr_data okEmbed [sampleRecord]).map (fun e => e.1) = ["7"]
    ∧ sampleRecord.id = 101
    ∧ toString sampleRecord.id ≠ "7" :=
  ⟨by decide, rfl, by decide⟩

/-- C2 (amended): the identifier of every produced EmbeddingVector (every
tuple `embed_pr_data` emits) is the last `/`-separated segment of the
corresponding change record's URL (the pull number as a string), not the
source-assigned `id` field captured by the Change Collector. -/
theorem embed_id_from_url_segment {V : Type} (f : List String → List V)
    (prs : List ChangeRecord) (i : Nat) (hp : i < prs.length)
    (e : String × V × Metadata)
    (he : (embed_pr_data f prs)[i]? = some e) :
    e.1 = lastUrlSegment (prs.get ⟨i, hp⟩).url := by
  cases hprs : prs.isEmpty with
  | true =>
    have hnil : prs = [] := List.isEmpty_iff.mp hprs
    subst hnil
    exact absurd hp (by simp)
  | false =>
    have hEq : embed_pr_data f prs =
        zip3 (prs.map fun pr => lastUrlSegment pr.url)
          (f (prs.map embedText)) (prs.map mkMetadata) := by
      simp only [embed_pr_data]
      rw [if_neg (by simp [hprs])]
    rw [hEq] at he
    have hlen : i < (zip3 (prs.map fun pr => lastUrlSegment pr.url)
        (f (prs.map embedText)) (prs.map mkMetadata)).length := by
      exact (List.getElem?_eq_some_iff.mp he).choose
    have hbounds := hlen
    rw [zip3_length] at hbounds
    have hb : i < (f (prs.map embedText)).length := by
      simp only [List.length_map] at hbounds
      omega
    have hget := zip3_getElem? (prs.map fun pr => lastUrlSegment pr.url)
      (f (prs.map embedText)) (prs.map mkMetadata) i
      (lastUrlSegment (prs.get ⟨i, hp⟩).url)
      ((f (prs.map embedText)).get ⟨i, hb⟩) (mkMetadata (prs.get ⟨i, hp⟩))
      (by simp [List.getElem?_map, List.getElem?_eq_getElem hp])
      (by simp [List.getElem?_eq_getElem hb])
      (by simp [List.getElem?_map, List.getElem?_eq_getElem hp])
    rw [hget] at he
    cases he
    rfl

/-- C2 witness: at the concrete record, the produced id is the URL's last
segment "7". -/
theorem embed_id_from_url_segment_wit :
    (0 < ([sampleRecord] : List ChangeRecord).length)
    ∧ (embed_pr_data okEmbed [sampleRecord])[0]? =
        some ("7", (0 : Int), mkMetadata sampleRecord)
    ∧ ("7", (0 : Int), mkMetadata sampleRecord).1 =
        lastUrlSegment (([sampleRecord] : List ChangeRecord).get
          ⟨0, by decide⟩).url :=
  ⟨by decide, by decide,
    embed_id_from_url_segment okEmbed [sampleRecord] 0 (by decide)
      ("7", (0 : Int), mkMetadata sampleRecord) (by decide)⟩

end CodeObserver
